import Mathlib

/-!
Verification of the merge-and-persist data pipeline in
`scripts/update_data.py` (gioia-bubble-tracker).

Python `dict`s keyed by ISO date strings are embedded as association
lists (`PyDict`): insertion order is the list order, lookup finds the
first matching key, and every dict built by the program satisfies the
representation invariant that its keys are pairwise distinct
(`(keys d).Nodup`).  Python's `==` on dicts (same key set, same values)
is embedded as `dictEq`.

Float prices are idealized as exact values (`PyFloat`): either a finite
rational, a signed infinity, or NaN.  Structural equality on `PyFloat`
matches the program's observable behaviour: values are copied by
reference between the dicts being compared, and Python's dict equality
short-circuits on identical objects.
-/

namespace BubbleTracker

/-- An embedded Python dict with `String` keys: an association list in
insertion order. -/
abbrev PyDict (V : Type) := List (String × V)

/-- The keys of a dict, in order. -/
def keys {V : Type} (d : PyDict V) : List String := d.map (fun p => p.1)

/-- `d[k]` / `d.get(k)`: the value at the first occurrence of `k`. -/
def dlookup {V : Type} (d : PyDict V) (k : String) : Option V :=
  match d with
  | [] => none
  | p :: rest => if p.1 = k then some p.2 else dlookup rest k

/-- `d[k] = v`: overwrite in place if `k` is present (keeping its
position, as Python dicts do), otherwise append at the end. -/
def dinsert {V : Type} (d : PyDict V) (k : String) (v : V) : PyDict V :=
  if (dlookup d k).isSome then
    d.map (fun p => if p.1 = k then (k, v) else p)
  else d ++ [(k, v)]

/-- `d.update(inc)`: insert every pair of `inc`, in order. -/
def dupdate {V : Type} (d inc : PyDict V) : PyDict V :=
  inc.foldl (fun acc p => dinsert acc p.1 p.2) d

/-- Python `==` on dicts: mutual agreement of lookups on all present
keys (equivalently, same key set and same values). -/
def dictEq {V : Type} [DecidableEq V] (a b : PyDict V) : Bool :=
  a.all (fun p => decide (dlookup b p.1 = dlookup a p.1)) &&
  b.all (fun p => decide (dlookup a p.1 = dlookup b p.1))

/-- `merge_series` from `scripts/update_data.py`:
`merged = dict(existing or {}); merged.update(incoming or {}); return merged`.
(`existing or {}` is the identity on dicts: a falsy dict is already
empty.)  The source type is `Dict[str, float] → Dict[str, float] →
Dict[str, float]`; the definition is value-polymorphic, used below at
the price type. -/
def merge_series {V : Type} (existing incoming : PyDict V) : PyDict V :=
  dupdate existing incoming

/-! ### Prices and Python float() parsing -/

/-- An idealized Python float: a finite value is kept exact as a
rational (the program only stores and compares values, so binary64
rounding is not observable in the properties below); `inf` carries its
sign; `nan` is a single value (values flow between the compared dicts
by reference, and Python's container equality treats an object as equal
to itself, so structural equality is the faithful model). -/
inductive PyFloat : Type where
  | finite (q : ℚ) : PyFloat
  | inf (neg : Bool) : PyFloat
  | nan : PyFloat
deriving DecidableEq

/-- Is this value a finite number? -/
def PyFloat.isFinite : PyFloat → Bool
  | PyFloat.finite _ => true
  | _ => false

/-- The value of a nonempty digit string. -/
def digitsToNat (cs : List Char) : ℕ :=
  cs.foldl (fun a c => a * 10 + (c.toNat - 48)) 0

/-- Is this a (possibly empty) run of ASCII digits? -/
def allDigits (cs : List Char) : Bool := cs.all Char.isDigit

/-- Split at the first occurrence of `c`: the part before it, and
(when `c` occurs) the part after it. -/
def splitAtChar (c : Char) : List Char → List Char × Option (List Char)
  | [] => ([], none)
  | x :: r =>
    if x = c then ([], some r)
    else
      let s := splitAtChar c r
      (x :: s.1, s.2)

/-- The exact rational `sign · digits · 10 ^ ex`, built from integer
arithmetic and the normalizing constructor `mkRat`. -/
def ratOfDigits (neg : Bool) (ds : List Char) (ex : ℤ) : ℚ :=
  let n : ℤ := Int.ofNat (digitsToNat ds)
  let sn : ℤ := if neg then -n else n
  if 0 ≤ ex then mkRat (sn * Int.ofNat (10 ^ ex.toNat)) 1
  else mkRat sn (10 ^ (-ex).toNat)

/-- The exponent part of a float literal: an optional sign followed by
at least one digit. -/
def parseExpPart (cs : List Char) : Option ℤ :=
  match cs with
  | '+' :: r => if allDigits r && !r.isEmpty then some (digitsToNat r : ℤ) else none
  | '-' :: r => if allDigits r && !r.isEmpty then some (-(digitsToNat r : ℤ)) else none
  | r => if allDigits r && !r.isEmpty then some (digitsToNat r : ℤ) else none

/-- ASCII whitespace, which Python's `float()` strips from both ends. -/
def isSpaceChar (c : Char) : Bool :=
  c = ' ' || c = '\t' || c = '\n' || c = '\r' || c = '\x0b' || c = '\x0c'

/-- Drop leading whitespace characters. -/
def dropLeadingSpace : List Char → List Char
  | [] => []
  | c :: r => if isSpaceChar c then dropLeadingSpace r else c :: r

/-- Strip whitespace from both ends. -/
def trimChars (cs : List Char) : List Char :=
  (dropLeadingSpace (dropLeadingSpace cs).reverse).reverse

/-- ASCII lower-casing of one character. -/
def lowerChar (c : Char) : Char :=
  if 'A' ≤ c && c ≤ 'Z' then Char.ofNat (c.toNat + 32) else c

/-- Python's `str.strip()`: remove whitespace from both ends (used on
the API key read from the environment). -/
def pyStrip (s : String) : String := String.mk (trimChars s.toList)

/-- Model of Python's built-in `float(str)` conversion (the standard
library routine the source calls on the adjusted-close field; it is not
part of this repository).  Surrounding whitespace is stripped; an
optional sign is followed by either the special words `inf`, `infinity`
or `nan` (case-insensitive) or a decimal literal with optional fraction
and optional exponent.  Notably the special words parse successfully,
producing non-finite values.  (Simplifications: digit-group
underscores and non-ASCII digits are not modelled; finite results are
exact rationals rather than rounded binary64.) -/
def pyFloatOfString (s : String) : Option PyFloat :=
  let cs := (trimChars s.toList).map lowerChar
  let sgn := match cs with
    | '+' :: r => (false, r)
    | '-' :: r => (true, r)
    | r => (false, r)
  let neg := sgn.1
  let body := sgn.2
  if body = "inf".toList || body = "infinity".toList then some (PyFloat.inf neg)
  else if body = "nan".toList then some PyFloat.nan
  else
    let sp := splitAtChar 'e' body
    let ds := splitAtChar '.' sp.1
    let ip := ds.1
    let fp := (ds.2).getD []
    if allDigits ip && allDigits fp && !(ip.isEmpty && fp.isEmpty) then
      match sp.2 with
      | none => some (PyFloat.finite (ratOfDigits neg (ip ++ fp) (-(fp.length : ℤ))))
      | some ecs =>
        (parseExpPart ecs).map (fun ex =>
          PyFloat.finite (ratOfDigits neg (ip ++ fp) (ex - (fp.length : ℤ))))
    else none

/-! ### Provider responses and extraction -/

/-- A JSON value found in an adjusted-close field.  Per the provider
contract the field is a string or a number (JSON numbers are finite);
`null` is also modelled because the source explicitly guards against a
missing/none value. -/
inductive FieldVal : Type where
  | null : FieldVal
  | str (s : String) : FieldVal
  | num (q : ℚ) : FieldVal
deriving DecidableEq

/-- `float(adj)` on a field value: a number converts to itself, a
string is parsed by `pyFloatOfString` (`None` is guarded against before
the conversion in the source, so the `null` case is unreachable
there). -/
def pyFloat : FieldVal → Option PyFloat
  | FieldVal.null => none
  | FieldVal.str s => pyFloatOfString s
  | FieldVal.num q => some (PyFloat.finite q)

/-- A provider JSON response, as the source reads it: the three keys it
inspects — `"Error Message"`, `"Note"`, and `"Time Series (Daily)"` —
each possibly absent.  The time series maps each date to its field
bundle. -/
structure AvResponse : Type where
  errorMessage : Option String
  note : Option String
  timeSeries : Option (PyDict (PyDict FieldVal))

/-- Lexicographic comparison of character lists by code point. -/
def charListLt : List Char → List Char → Bool
  | [], [] => false
  | [], _ :: _ => true
  | _ :: _, [] => false
  | a :: as, b :: bs =>
    if a < b then true
    else if b < a then false
    else charListLt as bs

/-- Python's `<` on strings: lexicographic by code point.  Valid as a
date comparison because zero-padded ISO dates sort chronologically. -/
def strLt (a b : String) : Bool := charListLt a.toList b.toList

/-- `fields.get("5. adjusted close")` as the source then tests it with
`if adj is None`: absent key and JSON `null` both yield `none`. -/
def fieldsGet (fields : PyDict FieldVal) : Option FieldVal :=
  match dlookup fields "5. adjusted close" with
  | some FieldVal.null => none
  | o => o

/-- One iteration of the extraction loop body over `out`:
skip if `d < earliest_date` (lexicographic string comparison), skip if
the adjusted-close field is missing, skip if `float(adj)` raises
`ValueError`, otherwise store `out[d] = float(adj)`. -/
def extractStep (earliest_date : String) (out : PyDict PyFloat)
    (p : String × PyDict FieldVal) : PyDict PyFloat :=
  if strLt p.1 earliest_date then out
  else
    match fieldsGet p.2 with
    | none => out
    | some adj =>
      match pyFloat adj with
      | none => out
      | some x => dinsert out p.1 x

/-- The extraction loop over the time-series dict. -/
def extractTS (series : PyDict (PyDict FieldVal)) (earliest_date : String) :
    PyDict PyFloat :=
  series.foldl (extractStep earliest_date) []

/-- `extract_adjusted_close_series` from `scripts/update_data.py`.  The
source first indexes `av_json["Time Series (Daily)"]`; a missing key
would raise `KeyError`, modelled as `none` (after validation in
`fetch_daily_adjusted` the key is always present). -/
def extract_adjusted_close_series (av_json : AvResponse) (earliest_date : String) :
    Option (PyDict PyFloat) :=
  av_json.timeSeries.map (fun series => extractTS series earliest_date)

/-- The value the extraction loop stores for one time-series entry
(date `d` with field bundle `fields`), if any. -/
def entryVal (earliest_date : String) (d : String) (fields : PyDict FieldVal) :
    Option PyFloat :=
  if strLt d earliest_date then none else (fieldsGet fields).bind pyFloat

/-! ### Fetch validation and the run orchestration (`main`) -/

/-- The fatal error kinds of the run, one per `raise` site in the
source.  `provider`, `rateLimit` and `schema` are the spec's
`ProviderError`, `RateLimitError` and `SchemaError`; the first three
constructors are its `ConfigError` cases (all are `RuntimeError`s in
the source, distinguished by their messages). -/
inductive Err : Type where
  | configMissing : Err
  | apiKeyMissing : Err
  | noTickers : Err
  | provider (sym msg : String) : Err
  | rateLimit (sym msg : String) : Err
  | schema (sym : String) : Err
deriving DecidableEq

/-- The validation part of `fetch_daily_adjusted`: after the HTTP call
returns JSON `j`, raise on an `"Error Message"` key, then on a `"Note"`
key, then on a missing `"Time Series (Daily)"` key; otherwise return
`j` unchanged. -/
def fetch_daily_adjusted (sym : String) (j : AvResponse) : Except Err AvResponse :=
  match j.errorMessage with
  | some m => Except.error (Err.provider sym m)
  | none =>
    match j.note with
    | some m => Except.error (Err.rateLimit sym m)
    | none =>
      if j.timeSeries.isSome then Except.ok j else Except.error (Err.schema sym)

/-- Does validation of this response succeed? -/
def fetchOk (j : AvResponse) : Bool :=
  j.errorMessage.isNone && j.note.isNone && j.timeSeries.isSome

/-- The `data_source` section of the configuration (all keys
optional; used only to stamp the output metadata). -/
structure DataSource : Type where
  provider : Option String
  endpoint : Option String
  field : Option String

/-- The configuration, as `main` reads it: the optional
`data_window.earliest_date`, the ticker symbols (the empty list also
models a missing `tickers` key), and the optional `data_source`
metadata. -/
structure Config : Type where
  earliest_date : Option String
  tickers : List String
  data_source : DataSource

/-- The persisted dataset document (`data/prices.json`): the per-ticker
series plus the metadata keys `main` stamps.  Metadata is optional on
read (a prior file may lack it); `main` sets every field before a
write. -/
structure Doc : Type where
  series : PyDict (PyDict PyFloat)
  generated_utc : Option String
  provider : Option String
  endpoint : Option String
  field : Option String
  earliest_date : Option String
deriving DecidableEq

/-- `{"series": {}}`: the in-memory document used when no prior file
exists. -/
def emptyDoc : Doc :=
  { series := [], generated_utc := none, provider := none, endpoint := none,
    field := none, earliest_date := none }

/-- Everything one run of `main` reads from its environment: the parsed
config file (`none` = missing), the `ALPHAVANTAGE_API_KEY` value, the
prior persisted document (`none` = missing file), the provider's
response per symbol, and the current UTC timestamp string. -/
structure RunInput : Type where
  config : Option Config
  apiKey : String
  prior : Option Doc
  responses : String → AvResponse
  now : String

/-- The mutable state of `main`'s symbol loop: `current_series`,
`updated_any`, and the observable trace of fetches performed and
pauses taken (each pause records its length in seconds). -/
structure LoopState : Type where
  series : PyDict (PyDict PyFloat)
  updatedAny : Bool
  fetched : List String
  sleeps : List Nat

/-- One successful loop iteration for `sym`: extract, merge against
`current_series.get(sym, {})`, store the merged series and set
`updated_any` only when `merged != existing`, then `time.sleep(13)`. -/
def okStep (resp : String → AvResponse) (e : String) (st : LoopState)
    (sym : String) : LoopState :=
  let incoming := (extract_adjusted_close_series (resp sym) e).getD []
  let existing := (dlookup st.series sym).getD []
  let merged := merge_series existing incoming
  if dictEq merged existing then
    { series := st.series, updatedAny := st.updatedAny,
      fetched := st.fetched ++ [sym], sleeps := st.sleeps ++ [13] }
  else
    { series := dinsert st.series sym merged, updatedAny := true,
      fetched := st.fetched ++ [sym], sleeps := st.sleeps ++ [13] }

/-- Did the iteration for `sym` find `merged != existing`? -/
def stepChanged (resp : String → AvResponse) (e : String) (st : LoopState)
    (sym : String) : Bool :=
  let incoming := (extract_adjusted_close_series (resp sym) e).getD []
  let existing := (dlookup st.series sym).getD []
  !(dictEq (merge_series existing incoming) existing)

/-- The symbol loop of `main`.  A failed fetch raises: the loop stops
with that error (after the network call for the failing symbol, before
its pause), and no later symbol is touched. -/
def runLoop (resp : String → AvResponse) (e : String) :
    List String → LoopState → LoopState × Option Err
  | [], st => (st, none)
  | sym :: rest, st =>
    match fetch_daily_adjusted sym (resp sym) with
    | Except.error er =>
      ({ series := st.series, updatedAny := st.updatedAny,
         fetched := st.fetched ++ [sym], sleeps := st.sleeps }, some er)
    | Except.ok _ => runLoop resp e rest (okStep resp e st sym)

/-- `cfg.get("data_window", {}).get("earliest_date", "2025-07-01")`. -/
def earliestOf (cfg : Config) : String := cfg.earliest_date.getD "2025-07-01"

/-- The loop's initial state:
`current = load_json(out_path) if out_path.exists() else {"series": {}}`,
`current_series = current.get("series", {})`. -/
def initState (inp : RunInput) : LoopState :=
  { series := (inp.prior.getD emptyDoc).series, updatedAny := false,
    fetched := [], sleeps := [] }

/-- The metadata stamping after the loop: store the final series and
re-assert `generated_utc`, `provider`, `endpoint`, `field` and
`earliest_date` from this run's clock and configuration. -/
def stampDoc (inp : RunInput) (cfg : Config) (series : PyDict (PyDict PyFloat)) :
    Doc :=
  { series := series
    generated_utc := some inp.now
    provider := some (cfg.data_source.provider.getD "Alpha Vantage")
    endpoint := some (cfg.data_source.endpoint.getD "TIME_SERIES_DAILY_ADJUSTED")
    field := some (cfg.data_source.field.getD "5. adjusted close")
    earliest_date := some (earliestOf cfg) }

/-- The observable outcome of one run: the fatal error if any, the
symbols for which a network call was made (in order), the pauses taken,
the loop's final in-memory series (`none` when the run aborted
mid-loop), and the document written to `data/prices.json` (`none` when
the file was left untouched). -/
structure RunResult : Type where
  err : Option Err
  fetched : List String
  sleeps : List Nat
  finalSeries : Option (PyDict (PyDict PyFloat))
  written : Option Doc

/-- `main` from `scripts/update_data.py`: config checks
(missing config file, missing/blank API key, empty ticker list), the
symbol loop, metadata stamping, and the write decision — write when
`updated_any`, else write only when no prior file exists, else leave
the file untouched. -/
def main (inp : RunInput) : RunResult :=
  match inp.config with
  | none =>
    { err := some Err.configMissing, fetched := [], sleeps := [],
      finalSeries := none, written := none }
  | some cfg =>
    if pyStrip inp.apiKey = "" then
      { err := some Err.apiKeyMissing, fetched := [], sleeps := [],
        finalSeries := none, written := none }
    else if cfg.tickers = [] then
      { err := some Err.noTickers, fetched := [], sleeps := [],
        finalSeries := none, written := none }
    else
      match runLoop inp.responses (earliestOf cfg) cfg.tickers (initState inp) with
      | (st, some er) =>
        { err := some er, fetched := st.fetched, sleeps := st.sleeps,
          finalSeries := none, written := none }
      | (st, none) =>
        let doc := stampDoc inp cfg st.series
        if st.updatedAny then
          { err := none, fetched := st.fetched, sleeps := st.sleeps,
            finalSeries := some st.series, written := some doc }
        else if inp.prior.isNone then
          { err := none, fetched := st.fetched, sleeps := st.sleeps,
            finalSeries := some st.series, written := some doc }
        else
          { err := none, fetched := st.fetched, sleeps := st.sleeps,
            finalSeries := some st.series, written := none }

/-! ### Concrete inputs used to instantiate the theorems -/

/-- A sample existing series. -/
def mergeWitE : PyDict PyFloat :=
  [("2025-07-01", PyFloat.finite 10), ("2025-07-02", PyFloat.finite 20)]

/-- A sample incoming series overlapping `mergeWitE` on one date. -/
def mergeWitI : PyDict PyFloat :=
  [("2025-07-02", PyFloat.finite 21), ("2025-07-03", PyFloat.finite 30)]

/-- A sample time-series container: one date before the cutoff, one
parsable entry, one unparsable entry. -/
def extractWitTS : PyDict (PyDict FieldVal) :=
  [("2025-06-30", [("5. adjusted close", FieldVal.str "9.5")]),
   ("2025-07-02", [("5. adjusted close", FieldVal.str "10.5")]),
   ("2025-07-03", [("5. adjusted close", FieldVal.str "oops")])]

/-- A well-formed provider response carrying `extractWitTS`. -/
def extractWitResp : AvResponse :=
  { errorMessage := none, note := none, timeSeries := some extractWitTS }

/-- A sample two-ticker configuration. -/
def witConfig : Config :=
  { earliest_date := some "2025-07-01", tickers := ["AAA", "BBB"],
    data_source := { provider := none, endpoint := none, field := none } }

/-- Well-formed responses: one data point for AAA, nothing for BBB. -/
def goodResp : String → AvResponse := fun sym =>
  if sym = "AAA" then
    { errorMessage := none, note := none,
      timeSeries := some [("2025-07-02", [("5. adjusted close", FieldVal.str "10.5")])] }
  else { errorMessage := none, note := none, timeSeries := some [] }

/-- A first run (no prior file) over `witConfig` with good responses. -/
def witInput : RunInput :=
  { config := some witConfig, apiKey := "k", prior := none,
    responses := goodResp, now := "2026-10-12 00:00:00Z" }

/-- Responses where BBB's carries an explicit provider error. -/
def badResp : String → AvResponse := fun sym =>
  if sym = "AAA" then { errorMessage := none, note := none, timeSeries := some [] }
  else { errorMessage := some "boom", note := none, timeSeries := none }

/-- A run whose second ticker's fetch fails. -/
def witBadInput : RunInput :=
  { config := some witConfig, apiKey := "k", prior := none,
    responses := badResp, now := "2026-10-12 00:00:00Z" }

/-- A configuration with an empty ticker list. -/
def witEmptyConfig : Config :=
  { earliest_date := none, tickers := [],
    data_source := { provider := none, endpoint := none, field := none } }

/-- A run over the empty ticker list. -/
def witEmptyInput : RunInput :=
  { config := some witEmptyConfig, apiKey := "k", prior := none,
    responses := goodResp, now := "2026-10-12 00:00:00Z" }

/-- The document `witInput`'s run writes. -/
def witDoc : Doc :=
  { series := [("AAA", [("2025-07-02", PyFloat.finite (mkRat 21 2))])],
    generated_utc := some "2026-10-12 00:00:00Z",
    provider := some "Alpha Vantage",
    endpoint := some "TIME_SERIES_DAILY_ADJUSTED",
    field := some "5. adjusted close",
    earliest_date := some "2025-07-01" }

/-! ### Basic dict lemmas -/

theorem keys_cons {V : Type} (p : String × V) (rest : PyDict V) :
    keys (p :: rest) = p.1 :: keys rest := rfl

theorem dlookup_isSome_iff_mem_keys {V : Type} (d : PyDict V) (k : String) :
    (dlookup d k).isSome = true ↔ k ∈ keys d := by
  induction d with
  | nil => simp [dlookup, keys]
  | cons p rest ih =>
    by_cases h : p.1 = k
    · simp [dlookup, keys_cons, h]
    · have hne : ¬ k = p.1 := fun hk => h hk.symm
      simp [dlookup, keys_cons, h, hne, ih, List.mem_cons]

theorem dlookup_eq_none_iff_not_mem_keys {V : Type} (d : PyDict V) (k : String) :
    dlookup d k = none ↔ k ∉ keys d := by
  rw [← dlookup_isSome_iff_mem_keys]
  cases dlookup d k <;> simp

theorem dlookup_map_overwrite_self {V : Type} (d : PyDict V) (k : String) (v : V)
    (h : (dlookup d k).isSome = true) :
    dlookup (d.map (fun p => if p.1 = k then (k, v) else p)) k = some v := by
  induction d with
  | nil => simp [dlookup] at h
  | cons p rest ih =>
    by_cases hpk : p.1 = k
    · simp [dlookup, hpk]
    · simp only [dlookup, hpk, if_false] at h
      simp [dlookup, hpk, ih h]

theorem dlookup_map_overwrite_ne {V : Type} (d : PyDict V) (k k' : String) (v : V)
    (hne : k' ≠ k) :
    dlookup (d.map (fun p => if p.1 = k then (k, v) else p)) k' = dlookup d k' := by
  induction d with
  | nil => simp [dlookup]
  | cons p rest ih =>
    by_cases hpk : p.1 = k
    · have hk : ¬ k = k' := fun h => hne h.symm
      simp [dlookup, hpk, hk, ih]
    · simp [dlookup, hpk, ih]

theorem dlookup_append {V : Type} (a b : PyDict V) (k : String) :
    dlookup (a ++ b) k =
      match dlookup a k with
      | some v => some v
      | none => dlookup b k := by
  induction a with
  | nil => simp [dlookup]
  | cons p rest ih =>
    by_cases h : p.1 = k
    · simp [dlookup, h]
    · simp [dlookup, h, ih]

theorem dlookup_dinsert_self {V : Type} (d : PyDict V) (k : String) (v : V) :
    dlookup (dinsert d k v) k = some v := by
  unfold dinsert
  by_cases h : (dlookup d k).isSome = true
  · simp [h, dlookup_map_overwrite_self d k v h]
  · have hnone : dlookup d k = none := by
      cases hd : dlookup d k
      · rfl
      · exact absurd (by simp [hd]) h
    simp [h, dlookup_append, hnone, dlookup]

theorem dlookup_dinsert_ne {V : Type} (d : PyDict V) (k k' : String) (v : V)
    (hne : k' ≠ k) :
    dlookup (dinsert d k v) k' = dlookup d k' := by
  unfold dinsert
  by_cases h : (dlookup d k).isSome = true
  · simp [h, dlookup_map_overwrite_ne d k k' v hne]
  · have : k ≠ k' := fun hk => hne hk.symm
    simp [h, dlookup_append, dlookup, this]
    cases dlookup d k' <;> simp

theorem dlookup_dupdate {V : Type} (I : PyDict V) (hI : (keys I).Nodup) :
    ∀ (E : PyDict V) (d : String),
      dlookup (dupdate E I) d =
        if (dlookup I d).isSome then dlookup I d else dlookup E d := by
  induction I with
  | nil => intro E d; simp [dupdate, dlookup]
  | cons p rest ih =>
    intro E d
    have hrest : (keys rest).Nodup := (List.nodup_cons.mp hI).2
    have hnotin : p.1 ∉ keys rest := (List.nodup_cons.mp hI).1
    have hstep : dupdate E (p :: rest) = dupdate (dinsert E p.1 p.2) rest := by
      simp [dupdate]
    rw [hstep, ih hrest]
    by_cases hd : p.1 = d
    · subst hd
      have hnone : dlookup rest p.1 = none :=
        (dlookup_eq_none_iff_not_mem_keys rest p.1).mpr hnotin
      simp [dlookup, hnone, dlookup_dinsert_self]
    · have hne : d ≠ p.1 := fun h => hd h.symm
      simp [dlookup, hd, dlookup_dinsert_ne E p.1 d p.2 hne]

theorem dictEq_iff {V : Type} [DecidableEq V] (a b : PyDict V) :
    dictEq a b = true ↔ ∀ k, dlookup a k = dlookup b k := by
  constructor
  · intro h k
    simp only [dictEq, Bool.and_eq_true, List.all_eq_true, decide_eq_true_eq] at h
    by_cases ha : (dlookup a k).isSome = true
    · obtain ⟨p, hp, hpk⟩ : ∃ p ∈ a, p.1 = k := by
        have := (dlookup_isSome_iff_mem_keys a k).mp ha
        simpa [keys] using this
      have := h.1 p hp
      rw [hpk] at this
      exact this.symm
    · by_cases hb : (dlookup b k).isSome = true
      · obtain ⟨p, hp, hpk⟩ : ∃ p ∈ b, p.1 = k := by
          have := (dlookup_isSome_iff_mem_keys b k).mp hb
          simpa [keys] using this
        have := h.2 p hp
        rw [hpk] at this
        exact this
      · have ha' : dlookup a k = none := by
          cases hd : dlookup a k
          · rfl
          · exact absurd (by simp [hd]) ha
        have hb' : dlookup b k = none := by
          cases hd : dlookup b k
          · rfl
          · exact absurd (by simp [hd]) hb
        rw [ha', hb']
  · intro h
    simp only [dictEq, Bool.and_eq_true, List.all_eq_true, decide_eq_true_eq]
    exact ⟨fun p _ => (h p.1).symm, fun p _ => h p.1⟩

theorem dlookup_merge_series {V : Type} (E I : PyDict V) (hI : (keys I).Nodup)
    (d : String) :
    dlookup (merge_series E I) d =
      if (dlookup I d).isSome then dlookup I d else dlookup E d :=
  dlookup_dupdate I hI E d

/-! ### Extraction lemmas -/

theorem dlookup_extractStep_ne (e : String) (acc : PyDict PyFloat)
    (p : String × PyDict FieldVal) (d : String) (hne : d ≠ p.1) :
    dlookup (extractStep e acc p) d = dlookup acc d := by
  unfold extractStep
  cases h1 : strLt p.1 e with
  | true => simp [h1]
  | false =>
    simp only [h1, Bool.false_eq_true, if_false]
    cases hfg : fieldsGet p.2 with
    | none => simp [hfg]
    | some adj =>
      cases hpf : pyFloat adj with
      | none => simp [hfg, hpf]
      | some x => simp [hfg, hpf, dlookup_dinsert_ne acc p.1 d x hne]

theorem dlookup_extractStep_self (e : String) (acc : PyDict PyFloat)
    (p : String × PyDict FieldVal) :
    dlookup (extractStep e acc p) p.1 =
      match entryVal e p.1 p.2 with
      | some x => some x
      | none => dlookup acc p.1 := by
  unfold extractStep entryVal
  cases h1 : strLt p.1 e with
  | true => simp [h1]
  | false =>
    simp only [h1, Bool.false_eq_true, if_false]
    cases hfg : fieldsGet p.2 with
    | none => simp [hfg]
    | some adj =>
      cases hpf : pyFloat adj with
      | none => simp [hfg, hpf]
      | some x => simp [hfg, hpf, dlookup_dinsert_self]

theorem dlookup_extractTS_aux (e : String) (series : PyDict (PyDict FieldVal)) :
    (keys series).Nodup →
    ∀ (acc : PyDict PyFloat) (d : String),
      dlookup (series.foldl (extractStep e) acc) d =
        match dlookup series d with
        | some fields =>
          (match entryVal e d fields with
           | some x => some x
           | none => dlookup acc d)
        | none => dlookup acc d := by
  induction series with
  | nil => intro _ acc d; simp [dlookup]
  | cons p rest ih =>
    intro hnd acc d
    have hrest : (keys rest).Nodup := (List.nodup_cons.mp hnd).2
    have hnotin : p.1 ∉ keys rest := (List.nodup_cons.mp hnd).1
    rw [List.foldl_cons, ih hrest]
    by_cases hd : p.1 = d
    · subst hd
      have hnone : dlookup rest p.1 = none :=
        (dlookup_eq_none_iff_not_mem_keys rest p.1).mpr hnotin
      rw [hnone]
      simp only [dlookup, if_pos rfl]
      exact dlookup_extractStep_self e acc p
    · have hne : d ≠ p.1 := fun h => hd h.symm
      rw [dlookup_extractStep_ne e acc p d hne]
      simp [dlookup, hd]

theorem dlookup_extractTS (series : PyDict (PyDict FieldVal)) (e d : String)
    (hnd : (keys series).Nodup) :
    dlookup (extractTS series e) d = (dlookup series d).bind (entryVal e d) := by
  rw [extractTS, dlookup_extractTS_aux e series hnd [] d]
  cases dlookup series d with
  | none => simp [dlookup]
  | some fields =>
    cases hev : entryVal e d fields with
    | none => simp [hev, dlookup]
    | some x => simp [hev]

/-! ### Orchestration lemmas -/

theorem okStep_fetched (resp : String → AvResponse) (e : String) (st : LoopState)
    (sym : String) : (okStep resp e st sym).fetched = st.fetched ++ [sym] := by
  simp only [okStep]
  split <;> rfl

theorem okStep_sleeps (resp : String → AvResponse) (e : String) (st : LoopState)
    (sym : String) : (okStep resp e st sym).sleeps = st.sleeps ++ [13] := by
  simp only [okStep]
  split <;> rfl

theorem okStep_updatedAny (resp : String → AvResponse) (e : String) (st : LoopState)
    (sym : String) :
    (okStep resp e st sym).updatedAny = (st.updatedAny || stepChanged resp e st sym) := by
  simp only [okStep, stepChanged]
  split
  · rename_i h; simp [h]
  · rename_i h; simp [h]

theorem okStep_series_of_not_changed (resp : String → AvResponse) (e : String)
    (st : LoopState) (sym : String)
    (h : stepChanged resp e st sym = false) :
    (okStep resp e st sym).series = st.series := by
  have h' : dictEq
      (merge_series ((dlookup st.series sym).getD [])
        ((extract_adjusted_close_series (resp sym) e).getD []))
      ((dlookup st.series sym).getD []) = true := by
    simpa [stepChanged] using h
  simp [okStep, h']

theorem okStep_series_of_changed (resp : String → AvResponse) (e : String)
    (st : LoopState) (sym : String)
    (h : stepChanged resp e st sym = true) :
    (okStep resp e st sym).series =
      dinsert st.series sym
        (merge_series ((dlookup st.series sym).getD [])
          ((extract_adjusted_close_series (resp sym) e).getD [])) := by
  have h' : dictEq
      (merge_series ((dlookup st.series sym).getD [])
        ((extract_adjusted_close_series (resp sym) e).getD []))
      ((dlookup st.series sym).getD []) = false := by
    simpa [stepChanged] using h
  simp [okStep, h']

theorem fetch_ok_of_fetchOk (sym : String) (j : AvResponse)
    (h : fetchOk j = true) : fetch_daily_adjusted sym j = Except.ok j := by
  simp only [fetchOk, Bool.and_eq_true, Option.isNone_iff_eq_none] at h
  obtain ⟨⟨h1, h2⟩, h3⟩ := h
  simp [fetch_daily_adjusted, h1, h2, h3]

theorem fetch_err_provider (sym : String) (j : AvResponse) (m : String)
    (hm : j.errorMessage = some m) :
    fetch_daily_adjusted sym j = Except.error (Err.provider sym m) := by
  simp [fetch_daily_adjusted, hm]

theorem fetch_err_rateLimit (sym : String) (j : AvResponse) (m : String)
    (hm : j.errorMessage = none) (hn : j.note = some m) :
    fetch_daily_adjusted sym j = Except.error (Err.rateLimit sym m) := by
  simp [fetch_daily_adjusted, hm, hn]

theorem fetch_err_schema (sym : String) (j : AvResponse)
    (hm : j.errorMessage = none) (hn : j.note = none) (hts : j.timeSeries = none) :
    fetch_daily_adjusted sym j = Except.error (Err.schema sym) := by
  simp [fetch_daily_adjusted, hm, hn, hts]

theorem fetch_error_of_not_fetchOk (sym : String) (j : AvResponse)
    (h : fetchOk j = false) :
    ∃ er, fetch_daily_adjusted sym j = Except.error er := by
  cases hm : j.errorMessage with
  | some m => exact ⟨Err.provider sym m, fetch_err_provider sym j m hm⟩
  | none =>
    cases hn : j.note with
    | some m => exact ⟨Err.rateLimit sym m, fetch_err_rateLimit sym j m hm hn⟩
    | none =>
      cases hts : j.timeSeries with
      | some ts => exact absurd h (by simp [fetchOk, hm, hn, hts])
      | none => exact ⟨Err.schema sym, fetch_err_schema sym j hm hn hts⟩

theorem runLoop_all_ok (resp : String → AvResponse) (e : String)
    (l : List String) (hok : ∀ s ∈ l, fetchOk (resp s) = true) :
    ∀ st, runLoop resp e l st = (l.foldl (okStep resp e) st, none) := by
  induction l with
  | nil => intro st; rfl
  | cons sym rest ih =>
    intro st
    have hs := hok sym (List.mem_cons_self sym rest)
    simp only [runLoop, fetch_ok_of_fetchOk sym (resp sym) hs, List.foldl_cons]
    exact ih (fun s hsr => hok s (List.mem_cons_of_mem _ hsr)) (okStep resp e st sym)

theorem foldl_okStep_fetched (resp : String → AvResponse) (e : String)
    (l : List String) :
    ∀ st, (l.foldl (okStep resp e) st).fetched = st.fetched ++ l := by
  induction l with
  | nil => intro st; simp
  | cons sym rest ih =>
    intro st
    rw [List.foldl_cons, ih, okStep_fetched]
    simp

theorem foldl_okStep_sleeps (resp : String → AvResponse) (e : String)
    (l : List String) :
    ∀ st, (l.foldl (okStep resp e) st).sleeps = st.sleeps ++ l.map (fun _ => 13) := by
  induction l with
  | nil => intro st; simp
  | cons sym rest ih =>
    intro st
    rw [List.foldl_cons, ih, okStep_sleeps]
    simp

theorem foldl_okStep_updatedAny (resp : String → AvResponse) (e : String)
    (l : List String) :
    ∀ st, ((l.foldl (okStep resp e) st).updatedAny = true ↔
      (st.updatedAny = true ∨ ∃ pre sym post, l = pre ++ sym :: post ∧
        stepChanged resp e (pre.foldl (okStep resp e) st) sym = true)) := by
  induction l with
  | nil =>
    intro st
    simp only [List.foldl_nil]
    constructor
    · intro h; exact Or.inl h
    · rintro (h | ⟨pre, sym, post, hl, _⟩)
      · exact h
      · exact absurd hl (by simp)
  | cons t rest ih =>
    intro st
    rw [List.foldl_cons, ih (okStep resp e st t)]
    constructor
    · rintro (h | ⟨pre, sym, post, hl, hch⟩)
      · rw [okStep_updatedAny] at h
        cases Bool.or_eq_true_iff.mp h with
        | inl h1 => exact Or.inl h1
        | inr h2 => exact Or.inr ⟨[], t, rest, rfl, h2⟩
      · refine Or.inr ⟨t :: pre, sym, post, by rw [hl]; rfl, ?_⟩
        rw [List.foldl_cons]
        exact hch
    · rintro (h | ⟨pre, sym, post, hl, hch⟩)
      · refine Or.inl ?_
        rw [okStep_updatedAny, h, Bool.true_or]
      · cases pre with
        | nil =>
          injection hl with h1 h2
          subst h1; subst h2
          simp only [List.foldl_nil] at hch
          refine Or.inl ?_
          rw [okStep_updatedAny, hch, Bool.or_true]
        | cons q pre' =>
          injection hl with h1 h2
          subst h1
          refine Or.inr ⟨pre', sym, post, h2, ?_⟩
          rw [List.foldl_cons] at hch
          exact hch

theorem runLoop_first_bad (resp : String → AvResponse) (e : String)
    (pre : List String) :
    ∀ (st : LoopState) (sym : String) (post : List String) (er : Err),
    (∀ s ∈ pre, fetchOk (resp s) = true) →
    fetch_daily_adjusted sym (resp sym) = Except.error er →
    runLoop resp e (pre ++ sym :: post) st =
      ({ series := (pre.foldl (okStep resp e) st).series,
         updatedAny := (pre.foldl (okStep resp e) st).updatedAny,
         fetched := (pre.foldl (okStep resp e) st).fetched ++ [sym],
         sleeps := (pre.foldl (okStep resp e) st).sleeps }, some er) := by
  induction pre with
  | nil =>
    intro st sym post er _ hbad
    simp only [List.nil_append, runLoop, hbad, List.foldl_nil]
  | cons q pre' ih =>
    intro st sym post er hok hbad
    have hq := hok q (List.mem_cons_self q pre')
    simp only [List.cons_append, runLoop, fetch_ok_of_fetchOk q (resp q) hq,
      List.foldl_cons]
    exact ih (okStep resp e st q) sym post er
      (fun s hs => hok s (List.mem_cons_of_mem _ hs)) hbad

theorem foldl_okStep_absent (resp : String → AvResponse) (e : String) (t : String)
    (hempty : (extract_adjusted_close_series (resp t) e).getD [] = []) :
    ∀ (l : List String) (st : LoopState), dlookup st.series t = none →
      dlookup ((l.foldl (okStep resp e) st).series) t = none := by
  intro l
  induction l with
  | nil => intro st h; simpa using h
  | cons sym rest ih =>
    intro st h
    rw [List.foldl_cons]
    apply ih
    by_cases hst : sym = t
    · subst hst
      have hex : (dlookup st.series sym).getD [] = ([] : PyDict PyFloat) := by
        rw [h]; rfl
      have hch : stepChanged resp e st sym = false := by
        simp only [stepChanged]
        rw [hex, hempty]
        rfl
      rw [okStep_series_of_not_changed resp e st sym hch]
      exact h
    · cases hch : stepChanged resp e st sym with
      | false =>
        rw [okStep_series_of_not_changed resp e st sym hch]
        exact h
      | true =>
        rw [okStep_series_of_changed resp e st sym hch,
          dlookup_dinsert_ne _ sym t _ (fun hh => hst hh.symm)]
        exact h

theorem main_all_ok (inp : RunInput) (cfg : Config)
    (hc : inp.config = some cfg) (hk : ¬ pyStrip inp.apiKey = "")
    (hne : ¬ cfg.tickers = [])
    (hok : ∀ s ∈ cfg.tickers, fetchOk (inp.responses s) = true) :
    main inp =
      (let st := cfg.tickers.foldl (okStep inp.responses (earliestOf cfg))
        (initState inp)
       { err := none, fetched := st.fetched, sleeps := st.sleeps,
         finalSeries := some st.series,
         written := if st.updatedAny || inp.prior.isNone
           then some (stampDoc inp cfg st.series) else none }) := by
  have hloop := runLoop_all_ok inp.responses (earliestOf cfg) cfg.tickers hok
    (initState inp)
  simp only [main, hc, hloop, if_neg hk, if_neg hne]
  by_cases h1 : (cfg.tickers.foldl (okStep inp.responses (earliestOf cfg))
      (initState inp)).updatedAny = true
  · simp [h1]
  · by_cases h2 : inp.prior.isNone = true
    · simp [h1, h2]
    · simp [h1, h2]

/-! ### Claim theorems -/

/-- C1: For every existing Series `E` and incoming Series `I` (a Series,
being a Python dict, has pairwise-distinct date keys), `merge_series`
returns the mapping whose key set is the union of `E`'s and `I`'s keys,
where the merged value at a date present in `I` is `I`'s value and at a
date present only in `E` is `E`'s value; in particular no date present
only in `E` is ever removed. -/
theorem merge_series_right_biased_union (E I : PyDict PyFloat)
    (hI : (keys I).Nodup) :
    (∀ d, dlookup (merge_series E I) d =
        if (dlookup I d).isSome then dlookup I d else dlookup E d) ∧
    (∀ d, d ∈ keys (merge_series E I) ↔ d ∈ keys E ∨ d ∈ keys I) ∧
    (∀ d, d ∈ keys E → d ∈ keys (merge_series E I)) := by
  have hmem : ∀ d, d ∈ keys (merge_series E I) ↔ d ∈ keys E ∨ d ∈ keys I := by
    intro d
    rw [← dlookup_isSome_iff_mem_keys, ← dlookup_isSome_iff_mem_keys,
      ← dlookup_isSome_iff_mem_keys, dlookup_merge_series E I hI d]
    by_cases h : (dlookup I d).isSome = true
    · simp [h]
    · simp [h]
  exact ⟨fun d => dlookup_merge_series E I hI d, hmem,
    fun d hd => (hmem d).mpr (Or.inl hd)⟩

/-- C5: merge is idempotent: merging the same incoming series twice
yields a result equal (as Python dicts) to merging it once. -/
theorem merge_series_idempotent (E I : PyDict PyFloat)
    (hI : (keys I).Nodup) :
    dictEq (merge_series (merge_series E I) I) (merge_series E I) = true := by
  rw [dictEq_iff]
  intro k
  rw [dlookup_merge_series (merge_series E I) I hI k,
    dlookup_merge_series E I hI k]
  by_cases h : (dlookup I k).isSome = true
  · simp [h]
  · simp [h]

/-- C2: for every provider response that contains the expected
time-series container (with distinct date keys, as a Python dict has)
and every cutoff, extraction returns without raising a mapping that
(a) contains no date lexicographically before the cutoff, (b) contains
no entry whose adjusted-close field was missing or failed to parse as a
number, and (c) contains, with its parsed value, every entry whose date
is at least the cutoff and whose field parses. -/
theorem extract_adjusted_close_series_spec (j : AvResponse) (e : String)
    (ts : PyDict (PyDict FieldVal)) (hts : j.timeSeries = some ts)
    (hnd : (keys ts).Nodup) :
    ∃ out, extract_adjusted_close_series j e = some out ∧
      (∀ d, d ∈ keys out → strLt d e = false) ∧
      (∀ d fields, dlookup ts d = some fields →
        (fieldsGet fields).bind pyFloat = none → d ∉ keys out) ∧
      (∀ d fields x, dlookup ts d = some fields → strLt d e = false →
        (fieldsGet fields).bind pyFloat = some x → dlookup out d = some x) := by
  refine ⟨extractTS ts e, by simp [extract_adjusted_close_series, hts], ?_, ?_, ?_⟩
  · intro d hd
    have h1 := (dlookup_isSome_iff_mem_keys (extractTS ts e) d).mpr hd
    rw [dlookup_extractTS ts e d hnd] at h1
    cases hts' : dlookup ts d with
    | none => rw [hts'] at h1; simp at h1
    | some fields =>
      rw [hts'] at h1
      cases hlt : strLt d e with
      | false => rfl
      | true => simp [entryVal, hlt] at h1
  · intro d fields hl hparse
    rw [← dlookup_isSome_iff_mem_keys, dlookup_extractTS ts e d hnd, hl]
    simp [entryVal, hparse]
  · intro d fields x hl hlt hparse
    rw [dlookup_extractTS ts e d hnd, hl]
    simp [entryVal, hlt, hparse]

/-- C6 counterexample: extraction does not only store finite numbers.
On a response whose adjusted-close field is the string "inf" — which
Python's `float()` parses successfully, raising no `ValueError` — the
entry is kept and the stored value is positive infinity. -/
theorem extract_stores_nonfinite_value :
    extract_adjusted_close_series
      { errorMessage := none, note := none,
        timeSeries :=
          some [("2025-07-02", [("5. adjusted close", FieldVal.str "inf")])] }
      "2025-07-01"
      = some [("2025-07-02", PyFloat.inf false)] ∧
    (PyFloat.inf false).isFinite = false := by
  exact ⟨by decide, rfl⟩

/-- C6 amended: every value stored by extraction is exactly the number
`float()` produced from the present, non-null adjusted-close field —
entries whose field is missing or fails to parse are dropped, and no
value is ever replaced by null or zero — but the stored number need not
be finite, because `float()` accepts "inf"/"infinity"/"nan". -/
theorem extract_values_faithful (ts : PyDict (PyDict FieldVal)) (e : String)
    (hnd : (keys ts).Nodup) (d : String) (x : PyFloat)
    (hx : dlookup (extractTS ts e) d = some x) :
    ∃ fields fv, dlookup ts d = some fields ∧ fieldsGet fields = some fv ∧
      pyFloat fv = some x := by
  rw [dlookup_extractTS ts e d hnd] at hx
  cases hts : dlookup ts d with
  | none => rw [hts] at hx; simp at hx
  | some fields =>
    rw [hts] at hx
    have hx1 : entryVal e d fields = some x := hx
    simp only [entryVal] at hx1
    by_cases hlt : strLt d e = true
    · rw [if_pos hlt] at hx1; exact absurd hx1 (by simp)
    · rw [if_neg hlt] at hx1
      cases hfg : fieldsGet fields with
      | none => rw [hfg] at hx1; exact absurd hx1 (by simp)
      | some fv =>
        rw [hfg] at hx1
        exact ⟨fields, fv, rfl, hfg, hx1⟩

/-- C3: when the response for a symbol signals an explicit error the
run fails with the provider-error kind, when it signals throttling it
fails with the rate-limit kind, and when the series container key is
absent it fails with the schema kind; the failure propagates
immediately — exactly the symbols up to and including the failing one
are fetched, no later symbol is processed — and the dataset file is not
written. -/
theorem main_fatal_fetch_aborts (inp : RunInput) (cfg : Config)
    (pre : List String) (sym : String) (post : List String)
    (hc : inp.config = some cfg) (hk : ¬ pyStrip inp.apiKey = "")
    (ht : cfg.tickers = pre ++ sym :: post)
    (hpre : ∀ s ∈ pre, fetchOk (inp.responses s) = true)
    (hbad : fetchOk (inp.responses sym) = false) :
    (∀ m, (inp.responses sym).errorMessage = some m →
      (main inp).err = some (Err.provider sym m)) ∧
    (∀ m, (inp.responses sym).errorMessage = none →
      (inp.responses sym).note = some m →
      (main inp).err = some (Err.rateLimit sym m)) ∧
    ((inp.responses sym).errorMessage = none → (inp.responses sym).note = none →
      (inp.responses sym).timeSeries = none →
      (main inp).err = some (Err.schema sym)) ∧
    (main inp).fetched = pre ++ [sym] ∧
    (main inp).written = none ∧
    (main inp).finalSeries = none := by
  obtain ⟨er, her⟩ := fetch_error_of_not_fetchOk sym (inp.responses sym) hbad
  have hne : ¬ (pre ++ sym :: post) = ([] : List String) := by simp
  have hrl := runLoop_first_bad inp.responses (earliestOf cfg) pre (initState inp)
    sym post er hpre her
  have hmain : main inp =
      { err := some er,
        fetched := (pre.foldl (okStep inp.responses (earliestOf cfg))
          (initState inp)).fetched ++ [sym],
        sleeps := (pre.foldl (okStep inp.responses (earliestOf cfg))
          (initState inp)).sleeps,
        finalSeries := none, written := none } := by
    simp only [main, hc, if_neg hk, ht, if_neg hne, hrl]
  have hfetched : (pre.foldl (okStep inp.responses (earliestOf cfg))
      (initState inp)).fetched = pre := by
    rw [foldl_okStep_fetched]
    simp [initState]
  refine ⟨?_, ?_, ?_, ?_, ?_, ?_⟩
  · intro m hm
    have h2 : (Except.error er : Except Err AvResponse) =
        Except.error (Err.provider sym m) := by
      rw [← her, fetch_err_provider sym (inp.responses sym) m hm]
    injection h2 with h3
    rw [hmain, h3]
  · intro m hm hn
    have h2 : (Except.error er : Except Err AvResponse) =
        Except.error (Err.rateLimit sym m) := by
      rw [← her, fetch_err_rateLimit sym (inp.responses sym) m hm hn]
    injection h2 with h3
    rw [hmain, h3]
  · intro hm hn hts
    have h2 : (Except.error er : Except Err AvResponse) =
        Except.error (Err.schema sym) := by
      rw [← her, fetch_err_schema sym (inp.responses sym) hm hn hts]
    injection h2 with h3
    rw [hmain, h3]
  · rw [hmain]
    simp [hfetched]
  · rw [hmain]
  · rw [hmain]

/-- C4: after all tickers are processed without a fatal error, the
dataset file is written if and only if at least one iteration found its
merged series different from the series it started from (full
structural dict comparison), or no dataset file existed before the
run. -/
theorem main_write_iff (inp : RunInput) (cfg : Config)
    (hc : inp.config = some cfg) (hk : ¬ pyStrip inp.apiKey = "")
    (hne : ¬ cfg.tickers = [])
    (hok : ∀ s ∈ cfg.tickers, fetchOk (inp.responses s) = true) :
    ((main inp).written.isSome = true ↔
      ((∃ pre sym post, cfg.tickers = pre ++ sym :: post ∧
          stepChanged inp.responses (earliestOf cfg)
            (pre.foldl (okStep inp.responses (earliestOf cfg)) (initState inp))
            sym = true) ∨
        inp.prior = none)) := by
  have h1 : (main inp).written.isSome =
      ((cfg.tickers.foldl (okStep inp.responses (earliestOf cfg))
        (initState inp)).updatedAny || inp.prior.isNone) := by
    rw [main_all_ok inp cfg hc hk hne hok]
    cases hb : ((cfg.tickers.foldl (okStep inp.responses (earliestOf cfg))
        (initState inp)).updatedAny || inp.prior.isNone) <;> simp [hb]
  rw [h1, Bool.or_eq_true]
  apply or_congr
  · rw [foldl_okStep_updatedAny]
    simp [initState]
  · exact Option.isNone_iff_eq_none

/-- C7: whenever the dataset is written, the written document's
`generated_utc` is this run's fresh timestamp, and its `provider`,
`endpoint`, `field` and `earliest_date` equal the configured values (or
their fixed defaults when absent), regardless of whether any series
changed. -/
theorem main_written_metadata (inp : RunInput) (cfg : Config) (doc : Doc)
    (hc : inp.config = some cfg) (hw : (main inp).written = some doc) :
    doc.generated_utc = some inp.now ∧
    doc.provider = some (cfg.data_source.provider.getD "Alpha Vantage") ∧
    doc.endpoint = some (cfg.data_source.endpoint.getD "TIME_SERIES_DAILY_ADJUSTED") ∧
    doc.field = some (cfg.data_source.field.getD "5. adjusted close") ∧
    doc.earliest_date = some (earliestOf cfg) := by
  simp only [main, hc] at hw
  by_cases hk : pyStrip inp.apiKey = ""
  · rw [if_pos hk] at hw; exact absurd hw (by simp)
  · rw [if_neg hk] at hw
    by_cases ht : cfg.tickers = []
    · rw [if_pos ht] at hw; exact absurd hw (by simp)
    · rw [if_neg ht] at hw
      rcases hrl : runLoop inp.responses (earliestOf cfg) cfg.tickers
        (initState inp) with ⟨st, oe⟩
      rw [hrl] at hw
      cases oe with
      | some er => exact absurd hw (by simp)
      | none =>
        by_cases hu : st.updatedAny = true
        · simp only [hu, if_true] at hw
          have hdoc : stampDoc inp cfg st.series = doc := by
            simpa using hw
          subst hdoc
          exact ⟨rfl, rfl, rfl, rfl, rfl⟩
        · simp only [hu, if_false] at hw
          by_cases hp : inp.prior.isNone = true
          · simp only [hp, if_true] at hw
            have hdoc : stampDoc inp cfg st.series = doc := by
              simpa using hw
            subst hdoc
            exact ⟨rfl, rfl, rfl, rfl, rfl⟩
          · simp only [hp, if_false] at hw
            exact absurd hw (by simp)

/-- C8: a run over `n` configured tickers that completes without a
fatal error performs exactly `n` fixed 13-second pauses, one per ticker
in order, including after the last one (and fetches exactly the
configured tickers in order). -/
theorem main_sleeps_per_ticker (inp : RunInput) (cfg : Config)
    (hc : inp.config = some cfg) (hk : ¬ pyStrip inp.apiKey = "")
    (hne : ¬ cfg.tickers = [])
    (hok : ∀ s ∈ cfg.tickers, fetchOk (inp.responses s) = true) :
    (main inp).err = none ∧
    (main inp).fetched = cfg.tickers ∧
    (main inp).sleeps = cfg.tickers.map (fun _ => 13) := by
  rw [main_all_ok inp cfg hc hk hne hok]
  refine ⟨rfl, ?_, ?_⟩
  · simp [foldl_okStep_fetched, initState]
  · simp [foldl_okStep_sleeps, initState]

/-- C9: with a configuration whose ticker list is empty (a missing
`tickers` key also reads as the empty list), the run aborts with a
fatal error before any network call and without writing the dataset
file; when the API key check passes, the error is the no-tickers
one. -/
theorem main_no_tickers_aborts (inp : RunInput) (cfg : Config)
    (hc : inp.config = some cfg) (ht : cfg.tickers = []) :
    (main inp).err.isSome = true ∧ (main inp).fetched = [] ∧
    (main inp).sleeps = [] ∧ (main inp).written = none ∧
    (¬ pyStrip inp.apiKey = "" → (main inp).err = some Err.noTickers) := by
  by_cases hk : pyStrip inp.apiKey = ""
  · simp [main, hc, hk]
  · simp [main, hc, hk, ht]

/-- C10: an iteration whose merged series equals its existing series
leaves the in-memory series mapping unmodified; in particular a ticker
absent from the prior dataset whose extracted incoming series is empty
gains no entry at all — neither in the loop's final in-memory series
nor in a written document, even on a first run that writes. -/
theorem main_unchanged_ticker_frame (inp : RunInput) (cfg : Config) (t : String)
    (hc : inp.config = some cfg) (hk : ¬ pyStrip inp.apiKey = "")
    (hne : ¬ cfg.tickers = [])
    (hok : ∀ s ∈ cfg.tickers, fetchOk (inp.responses s) = true)
    (hmiss : dlookup (initState inp).series t = none)
    (hempty : (extract_adjusted_close_series (inp.responses t)
      (earliestOf cfg)).getD [] = []) :
    (∀ st sym, stepChanged inp.responses (earliestOf cfg) st sym = false →
      (okStep inp.responses (earliestOf cfg) st sym).series = st.series) ∧
    (∃ fs, (main inp).finalSeries = some fs ∧ dlookup fs t = none) ∧
    (∀ doc, (main inp).written = some doc → dlookup doc.series t = none) := by
  have habs := foldl_okStep_absent inp.responses (earliestOf cfg) t hempty
    cfg.tickers (initState inp) hmiss
  refine ⟨fun st sym h =>
    okStep_series_of_not_changed inp.responses (earliestOf cfg) st sym h, ?_, ?_⟩
  · rw [main_all_ok inp cfg hc hk hne hok]
    exact ⟨_, rfl, habs⟩
  · intro doc hdoc
    rw [main_all_ok inp cfg hc hk hne hok] at hdoc
    simp only [] at hdoc
    split at hdoc
    · injection hdoc with h
      subst h
      simpa [stampDoc] using habs
    · exact absurd hdoc (by simp)

/-! ### Witnesses: the theorems instantiated at concrete inputs -/

/-- Witness for C1 at concrete series. -/
theorem merge_series_right_biased_union_witness :
    (keys mergeWitI).Nodup ∧
    ((∀ d, dlookup (merge_series mergeWitE mergeWitI) d =
        if (dlookup mergeWitI d).isSome then dlookup mergeWitI d
        else dlookup mergeWitE d) ∧
     (∀ d, d ∈ keys (merge_series mergeWitE mergeWitI) ↔
        d ∈ keys mergeWitE ∨ d ∈ keys mergeWitI) ∧
     (∀ d, d ∈ keys mergeWitE → d ∈ keys (merge_series mergeWitE mergeWitI))) :=
  ⟨by decide, merge_series_right_biased_union mergeWitE mergeWitI (by decide)⟩

/-- Witness for C5 at concrete series. -/
theorem merge_series_idempotent_witness :
    (keys mergeWitI).Nodup ∧
    dictEq (merge_series (merge_series mergeWitE mergeWitI) mergeWitI)
      (merge_series mergeWitE mergeWitI) = true :=
  ⟨by decide, merge_series_idempotent mergeWitE mergeWitI (by decide)⟩

/-- Witness for C2 at a concrete response. -/
theorem extract_adjusted_close_series_spec_witness :
    (extractWitResp.timeSeries = some extractWitTS ∧ (keys extractWitTS).Nodup) ∧
    (∃ out, extract_adjusted_close_series extractWitResp "2025-07-01" = some out ∧
      (∀ d, d ∈ keys out → strLt d "2025-07-01" = false) ∧
      (∀ d fields, dlookup extractWitTS d = some fields →
        (fieldsGet fields).bind pyFloat = none → d ∉ keys out) ∧
      (∀ d fields x, dlookup extractWitTS d = some fields →
        strLt d "2025-07-01" = false →
        (fieldsGet fields).bind pyFloat = some x → dlookup out d = some x)) :=
  ⟨⟨rfl, by decide⟩,
   extract_adjusted_close_series_spec extractWitResp "2025-07-01" extractWitTS
     rfl (by decide)⟩

/-- Witness for the amended C6 at a concrete stored value. -/
theorem extract_values_faithful_witness :
    ((keys extractWitTS).Nodup ∧
      dlookup (extractTS extractWitTS "2025-07-01") "2025-07-02" =
        some (PyFloat.finite (mkRat 21 2))) ∧
    (∃ fields fv, dlookup extractWitTS "2025-07-02" = some fields ∧
      fieldsGet fields = some fv ∧
      pyFloat fv = some (PyFloat.finite (mkRat 21 2))) :=
  ⟨⟨by decide, by decide⟩,
   extract_values_faithful extractWitTS "2025-07-01" (by decide) "2025-07-02"
     (PyFloat.finite (mkRat 21 2)) (by decide)⟩

/-- Witness for C3: a run whose second ticker's response carries an
explicit provider error. -/
theorem main_fatal_fetch_aborts_witness :
    (witBadInput.config = some witConfig ∧
      ¬ pyStrip witBadInput.apiKey = "" ∧
      witConfig.tickers = ["AAA"] ++ "BBB" :: [] ∧
      (∀ s ∈ ["AAA"], fetchOk (witBadInput.responses s) = true) ∧
      fetchOk (witBadInput.responses "BBB") = false) ∧
    ((∀ m, (witBadInput.responses "BBB").errorMessage = some m →
      (main witBadInput).err = some (Err.provider "BBB" m)) ∧
    (∀ m, (witBadInput.responses "BBB").errorMessage = none →
      (witBadInput.responses "BBB").note = some m →
      (main witBadInput).err = some (Err.rateLimit "BBB" m)) ∧
    ((witBadInput.responses "BBB").errorMessage = none →
      (witBadInput.responses "BBB").note = none →
      (witBadInput.responses "BBB").timeSeries = none →
      (main witBadInput).err = some (Err.schema "BBB")) ∧
    (main witBadInput).fetched = ["AAA"] ++ ["BBB"] ∧
    (main witBadInput).written = none ∧
    (main witBadInput).finalSeries = none) :=
  ⟨⟨rfl, by decide, rfl, by decide, by decide⟩,
   main_fatal_fetch_aborts witBadInput witConfig ["AAA"] "BBB" [] rfl
     (by decide) rfl (by decide) (by decide)⟩

/-- Witness for C4: a first run with a changing ticker. -/
theorem main_write_iff_witness :
    (witInput.config = some witConfig ∧ ¬ pyStrip witInput.apiKey = "" ∧
      ¬ witConfig.tickers = [] ∧
      (∀ s ∈ witConfig.tickers, fetchOk (witInput.responses s) = true)) ∧
    ((main witInput).written.isSome = true ↔
      ((∃ pre sym post, witConfig.tickers = pre ++ sym :: post ∧
          stepChanged witInput.responses (earliestOf witConfig)
            (pre.foldl (okStep witInput.responses (earliestOf witConfig))
              (initState witInput)) sym = true) ∨
        witInput.prior = none)) :=
  ⟨⟨rfl, by decide, by decide, by decide⟩,
   main_write_iff witInput witConfig rfl (by decide) (by decide) (by decide)⟩

/-- Witness for C7: the document actually written by `witInput`'s run
carries the fresh timestamp and the configured metadata. -/
theorem main_written_metadata_witness :
    (witInput.config = some witConfig ∧
      (main witInput).written = some witDoc) ∧
    (witDoc.generated_utc = some witInput.now ∧
     witDoc.provider = some (witConfig.data_source.provider.getD "Alpha Vantage") ∧
     witDoc.endpoint =
       some (witConfig.data_source.endpoint.getD "TIME_SERIES_DAILY_ADJUSTED") ∧
     witDoc.field = some (witConfig.data_source.field.getD "5. adjusted close") ∧
     witDoc.earliest_date = some (earliestOf witConfig)) :=
  ⟨⟨rfl, by decide⟩,
   main_written_metadata witInput witConfig witDoc rfl (by decide)⟩

/-- Witness for C8: two tickers, two 13-second pauses. -/
theorem main_sleeps_per_ticker_witness :
    (witInput.config = some witConfig ∧ ¬ pyStrip witInput.apiKey = "" ∧
      ¬ witConfig.tickers = [] ∧
      (∀ s ∈ witConfig.tickers, fetchOk (witInput.responses s) = true)) ∧
    ((main witInput).err = none ∧
     (main witInput).fetched = witConfig.tickers ∧
     (main witInput).sleeps = witConfig.tickers.map (fun _ => 13)) :=
  ⟨⟨rfl, by decide, by decide, by decide⟩,
   main_sleeps_per_ticker witInput witConfig rfl (by decide) (by decide)
     (by decide)⟩

/-- Witness for C9: the empty ticker list aborts before any fetch. -/
theorem main_no_tickers_aborts_witness :
    (witEmptyInput.config = some witEmptyConfig ∧ witEmptyConfig.tickers = []) ∧
    ((main witEmptyInput).err.isSome = true ∧ (main witEmptyInput).fetched = [] ∧
     (main witEmptyInput).sleeps = [] ∧ (main witEmptyInput).written = none ∧
     (¬ pyStrip witEmptyInput.apiKey = "" →
        (main witEmptyInput).err = some Err.noTickers)) :=
  ⟨⟨rfl, rfl⟩, main_no_tickers_aborts witEmptyInput witEmptyConfig rfl rfl⟩

/-- Witness for C10: ticker BBB is absent from the (missing) prior
dataset, its incoming series is empty, and it gains no entry even
though the run writes the file. -/
theorem main_unchanged_ticker_frame_witness :
    (witInput.config = some witConfig ∧ ¬ pyStrip witInput.apiKey = "" ∧
      ¬ witConfig.tickers = [] ∧
      (∀ s ∈ witConfig.tickers, fetchOk (witInput.responses s) = true) ∧
      dlookup (initState witInput).series "BBB" = none ∧
      (extract_adjusted_close_series (witInput.responses "BBB")
        (earliestOf witConfig)).getD [] = []) ∧
    ((∀ st sym, stepChanged witInput.responses (earliestOf witConfig) st sym = false →
      (okStep witInput.responses (earliestOf witConfig) st sym).series = st.series) ∧
    (∃ fs, (main witInput).finalSeries = some fs ∧ dlookup fs "BBB" = none) ∧
    (∀ doc, (main witInput).written = some doc → dlookup doc.series "BBB" = none)) :=
  ⟨⟨rfl, by decide, by decide, by decide, by decide, by decide⟩,
   main_unchanged_ticker_frame witInput witConfig "BBB" rfl (by decide)
     (by decide) (by decide) (by decide) (by decide)⟩

end BubbleTracker
